import Mathlib

/-!
# Verification of the `fvtt-vue` VueApplicationMixin against its specification

Shallow embedding of `src/VueApplicationMixin.mjs` (the mixin's render,
replace, listener-attachment, close and form-event code) and of
`vueGetTemplate` from the template-loader file.  JavaScript objects used as
string-keyed tables are modelled as association lists with JS-object
semantics (a key is bound at most once; `setA` replaces any existing
binding).  Mutable per-host private fields (`#instances`, `#props`) together
with the DOM containers created by `_replaceHTML` form an explicit state
record that the operations thread.  Observable actions (console / UI
warnings, Vue `mount`/`unmount` calls, delegation to the host `close`,
`preventDefault`, handler invocation) are emitted as an effect trace.
JavaScript `TypeError`s raised by property access on `undefined` are
modelled as an explicit thrown flag.  Vue 3 semantics of `app.mount` on an
already-mounted app and `app.unmount` on a never-mounted app (warn and do
nothing) are modelled at the two call sites.
-/

namespace FvttVue

/-- A reactive prop bag: a JS object of string-valued properties, modelled
as an association list read through `getProp`.  (Assigning `undefined` to a
property is modelled as leaving the bag unchanged, since property reads
cannot distinguish the two.) -/
abbrev PropBag := List (String × String)

/-- Association-list lookup, the model of reading `obj[k]` (`none` is JS
`undefined`; a JS object binds a key at most once, so first-match lookup
is the object's lookup). -/
def lookupA {α : Type} : List (String × α) → String → Option α
  | [], _ => none
  | kv :: t, k => if kv.1 = k then some kv.2 else lookupA t k

/-- Association-list update, the model of `obj[k] = v` on a JS object:
replaces the existing binding of `k`, else appends a new one. -/
def setA {α : Type} : List (String × α) → String → α → List (String × α)
  | [], k, v => [(k, v)]
  | kv :: t, k, v => if kv.1 = k then (k, v) :: t else kv :: setA t k v

/-- `getProp bag k` reads property `k` of a prop bag. -/
def getProp (bag : PropBag) (k : String) : Option String :=
  lookupA bag k

/-- `setProp bag k v` writes property `k` of a prop bag. -/
def setProp (bag : PropBag) (k : String) (v : String) : PropBag :=
  setA bag k v

/-- A JavaScript value that a part's `app` / `component` / `template` field
can resolve to: `appV n` is a value with a `mount` function (a Vue
application instance), `comp n` is a component definition or compiled
template module (no `mount` function), `undefV` is `undefined` (a part
declaring none of the three fields). -/
inductive VueValue where
  | undefV : VueValue
  | appV : Nat → VueValue
  | comp : Nat → VueValue
deriving DecidableEq, Repr

/-- `typeof v?.mount === 'function'` (line 109 of the source). -/
def hasMountFn : VueValue → Bool
  | .appV _ => true
  | _ => false

/-- Configuration of one entry of `part.forms` (source lines 216-240):
`handler` is `some h` when the configured handler is a function (`h`
identifying it), `none` otherwise. -/
structure FormConfig where
  handler : Option Nat
  closeOnSubmit : Bool
  submitOnChange : Bool
deriving DecidableEq, Repr

/-- A part definition from the static `PARTS` registry.  `forms = none`
models an absent `forms` property (falsy); `forms = some l` a `forms`
object with the listed selector/config entries. -/
structure PartDef where
  id : String
  app : Option VueValue
  component : Option VueValue
  template : Option VueValue
  props : Option PropBag
  forms : Option (List (String × FormConfig))
deriving DecidableEq, Repr

/-- The value stored in `this.#instances[part.id]`: either the part's own
already-mountable value (`direct n` for `VueValue.appV n`), or the result
of `createApp(value, propsBag)` (line 109). -/
inductive Instance where
  | direct : Nat → Instance
  | created : VueValue → PropBag → Instance
deriving DecidableEq, Repr

/-- A tracked instance together with its Vue mounted/unmounted status
(the status lives in the Vue app object; the mixin never reads it, but Vue's
`mount`/`unmount` guards consult it). -/
structure InstEntry where
  inst : Instance
  mounted : Bool
deriving DecidableEq, Repr

/-- `Object.entries(this.constructor.PARTS)` in insertion order; a `none`
definition models a key bound to a falsy value (`undefined`/`null`). -/
abbrev Registry := List (String × Option PartDef)

/-- The mutable per-host state: the `#instances` table, the `#props` table,
and the registry keys for which a `<div data-application-part="key">`
container currently exists in the host's content element. -/
structure AppState where
  instances : List (String × InstEntry)
  props : List (String × PropBag)
  containers : List String
deriving DecidableEq, Repr

/-- The fresh state of a newly constructed host application. -/
def initState : AppState := ⟨[], [], []⟩

/-- Observable actions emitted by the mixin's code, in program order. -/
inductive Eff where
  | warnE : String → Eff
  | logE : String → Eff
  | unmountE : String → Instance → Eff
  | mountE : String → Instance → Eff
  | superCloseE : Eff
  | preventedE : Nat → Eff
  | handlerCalledE : Nat → Nat → Nat → Nat → Eff
deriving DecidableEq, Repr

/-- The render options after `_configureRenderOptions` (source lines 53-56):
`options.parts ??= Object.keys(PARTS)`. -/
structure RenderOpts where
  parts : List String
  force : Bool
  props : Option PropBag
deriving DecidableEq, Repr

/-- `_configureRenderOptions`: defaults `parts` to the registry's keys. -/
def configureOpts (reg : Registry) (parts? : Option (List String)) (force : Bool)
    (props? : Option PropBag) : RenderOpts :=
  ⟨parts?.getD (reg.map (fun kv => kv.1)), force, props?⟩

/-- `part?.app ?? part?.component ?? part?.template` (source line 104);
when all three are nullish the awaited value is `undefined`. -/
def resolveSource (part : PartDef) : VueValue :=
  ((part.app.orElse (fun _ => part.component)).orElse (fun _ => part.template)).getD .undefV

/-- `options?.props ?? part?.props ?? {}` (source line 106). -/
def seedProps (part : PartDef) (opts : RenderOpts) : PropBag :=
  (opts.props.orElse (fun _ => part.props)).getD []

/-- Lines 104-109: the tracked instance becomes the resolved value itself
when it has a `mount` function, else `createApp(value, bag)`. -/
def mkInstance (part : PartDef) (bag : PropBag) : Instance :=
  match resolveSource part with
  | .appV n => .direct n
  | v => .created v bag

/-- The body of the `_renderHTML` loop (source lines 88-115) for one
registry entry `(key, partOpt)`.  Returns the new state, the emitted
effects, and the entry added to the `rendered` object (if any).
`app.unmount()` on a never-mounted Vue app only warns (Vue 3 guard). -/
def renderHTMLPart (st : AppState) (opts : RenderOpts) (key : String)
    (partOpt : Option PartDef) : AppState × List Eff × Option (String × Instance) :=
  match partOpt with
  | none =>
      -- line 90: ui.notifications.warn, then continue (before the parts check)
      (st, [.warnE (s!"Part {key} is not a supported template part")], none)
  | some part =>
      if ¬ opts.parts.contains key then (st, [], none)
      else
        -- line 98: if an instance exists and force is true, unmount it
        let s1 : AppState × List Eff :=
          match lookupA st.instances part.id with
          | some e =>
              if opts.force then
                if e.mounted then
                  ({ st with instances := setA st.instances part.id ⟨e.inst, false⟩ },
                   [.unmountE part.id e.inst])
                else (st, [.warnE "Vue warn: cannot unmount an app that is not mounted"])
              else (st, [])
          | none => (st, [])
        let st1 := s1.1
        -- lines 101-110: create the instance and seed the reactive props
        let st2 :=
          if (lookupA st1.instances part.id).isNone || opts.force then
            let bag := seedProps part opts
            { st1 with
                instances := setA st1.instances part.id ⟨mkInstance part bag, false⟩,
                props := setA st1.props part.id bag }
          else st1
        let creationLog : List Eff :=
          if (lookupA st1.instances part.id).isNone || opts.force then
            [.logE (s!"Setting Up Vue Instance {part.id}")]
          else []
        -- line 114: rendered[key] = this.#instances[part.id]
        let renderedEntry := (lookupA st2.instances part.id).map (fun e => (key, e.inst))
        (st2, s1.2 ++ creationLog, renderedEntry)

/-- The `_renderHTML` loop over the whole registry.  It cannot throw. -/
def renderParts (reg : Registry) (opts : RenderOpts) (st : AppState) :
    AppState × List Eff × List (String × Instance) :=
  match reg with
  | [] => (st, [], [])
  | (key, p) :: rest =>
      let r1 := renderHTMLPart st opts key p
      let r2 := renderParts rest opts r1.1
      (r2.1, r1.2.1 ++ r2.2.1, (r1.2.2.elim [] (fun e => [e])) ++ r2.2.2)

/-- `_attachPartListeners` (source lines 171-185) throws a `TypeError` iff:
the registry has no truthy entry under the key `partId` (note: the source
looks the part up by its `id`, not by its registry key), or a `provide`
call is reached while `this.#instances[partId]` is `undefined`.  A truthy
but empty `forms` object runs the loop zero times and calls nothing. -/
def attachThrows (reg : Registry) (st : AppState) (partId : String) : Bool :=
  match lookupA reg partId with
  | none => true
  | some none => true
  | some (some p) =>
      match p.forms with
      | some fs => ¬ fs.isEmpty && (lookupA st.instances partId).isNone
      | none => (lookupA st.instances partId).isNone

/-- Line 137: `this.#props[part.id].title = options?.props?.title ??
this.#props[part.id].title`, as a pure bag transformation. -/
def mergeTitleOnly (bag : PropBag) (optsProps : Option PropBag) : PropBag :=
  match (optsProps.bind (fun ps => getProp ps "title")).orElse (fun _ => getProp bag "title") with
  | some v => setProp bag "title" v
  | none => bag

/-- The body of the `_replaceHTML` loop (source lines 128-159) for one
registry entry.  Returns the new state, the emitted effects, and whether a
`TypeError` was thrown (property access on `undefined`).  Vue 3's
`app.mount` on an already-mounted app only warns. -/
def replaceHTMLPart (reg : Registry) (st : AppState) (opts : RenderOpts) (key : String)
    (partOpt : Option PartDef) : AppState × List Eff × Bool :=
  let target := st.containers.contains key
  if ¬ opts.parts.contains key then (st, [], false)
  else if target && !opts.force then
    -- lines 135-144: container exists and force is not set
    match partOpt with
    | none => (st, [], true)        -- `part.id` on undefined throws
    | some part =>
        match lookupA st.props part.id with
        | none => (st, [], true)    -- `.title` on undefined throws
        | some bag =>
            ({ st with props := setA st.props part.id (mergeTitleOnly bag opts.props) },
             [], false)
  else
    -- line 150: create the container if it does not exist
    let st1 := if target then st else { st with containers := key :: st.containers }
    match partOpt with
    | none => (st1, [], true)       -- `part.id` at the attach call throws
    | some part =>
        if attachThrows reg st1 part.id then (st1, [], true)
        else
          -- line 156: this.#instances[part.id].mount(container)
          match lookupA st1.instances part.id with
          | none => (st1, [], true) -- `.mount` on undefined throws
          | some e =>
              if e.mounted then
                (st1, [.warnE "Vue warn: app has already been mounted"], false)
              else
                ({ st1 with instances := setA st1.instances part.id ⟨e.inst, true⟩ },
                 [.mountE part.id e.inst], false)

/-- The `_replaceHTML` loop; a thrown `TypeError` aborts the remaining
registry entries. -/
def replaceParts (reg0 : Registry) (reg : Registry) (opts : RenderOpts) (st : AppState) :
    AppState × List Eff × Bool :=
  match reg with
  | [] => (st, [], false)
  | (key, p) :: rest =>
      let r1 := replaceHTMLPart reg0 st opts key p
      if r1.2.2 then r1
      else
        let r2 := replaceParts reg0 rest opts r1.1
        (r2.1, r1.2.1 ++ r2.2.1, r2.2.2)

/-- One full render cycle as driven by the host: `_renderHTML` followed by
`_replaceHTML` with the same options. -/
def renderCycle (reg : Registry) (st : AppState) (opts : RenderOpts) :
    AppState × List Eff × Bool :=
  let r := renderParts reg opts st
  let p := replaceParts reg reg opts r.1
  (p.1, r.2.1 ++ p.2.1, p.2.2)

/-- The `instance.unmount()` calls issued by `close`'s loop, one per
tracked entry in table order.  Vue's `unmount` on a never-mounted app only
warns and does nothing. -/
def closeUnmountEffs : List (String × InstEntry) → List Eff
  | [] => []
  | ke :: rest =>
      (if ke.2.mounted then [Eff.unmountE ke.1 ke.2.inst]
       else [Eff.warnE "Vue warn: cannot unmount an app that is not mounted"]) ++
      closeUnmountEffs rest

/-- `close` (source lines 193-202): unmount every tracked instance in table
order, delete every entry, then delegate to the host's own close.  Vue's
`unmount` on a never-mounted app only warns.  The host's `super.close`
tears down the application window, so the part containers are gone for any
later render; the `#props` table is NOT cleared by the source. -/
def close (st : AppState) : AppState × List Eff :=
  (⟨[], st.props, []⟩, closeUnmountEffs st.instances ++ [.superCloseE])

/-- One host-driven command: a render call (with optional explicit part
list and props, and the force flag) or a close call. -/
inductive Cmd where
  | renderC : Option (List String) → Bool → Option PropBag → Cmd
  | closeC : Cmd

/-- Execute one command against the host state. -/
def step (reg : Registry) (st : AppState) : Cmd → AppState × List Eff
  | .renderC ps f pr =>
      let o := configureOpts reg ps f pr
      let r := renderCycle reg st o
      (r.1, r.2.1)
  | .closeC => close st

/-- Execute a command list (a host instance's lifetime), collecting the
full effect trace.  A render cycle that threw leaves its partial state and
effects in place; later commands still run (the host catches the error). -/
def run (reg : Registry) (st : AppState) : List Cmd → AppState × List Eff
  | [] => (st, [])
  | c :: cs =>
      let r1 := step reg st c
      let r2 := run reg r1.1 cs
      (r2.1, r1.2 ++ r2.2)

/-! ## Form-event callables (source lines 216-240)

The callables receive the part's content element, the prefixed selector and
the form configuration pre-bound by `_attachPartListeners`.  The content
element is modelled as the map from selectors to the form element each one
matches (`querySelector` returning `null` is `none`); form elements and
form-data snapshots are identified by naturals. -/

/-- A content element: which form element each selector resolves to. -/
abbrev Content := List (String × Nat)

/-- The result of a form-event callable: the host state afterwards, the
emitted effects, and whether the async callable rejected with a thrown
error. -/
structure SubmitResult where
  state : AppState
  effects : List Eff
  thrown : Bool
deriving DecidableEq, Repr

/-- `#onSubmitForm` (source lines 216-224).  `event.preventDefault()` is
emitted first.  When the selector matches no form, `form` is `null` and
`new FormDataExtended(null)` throws a `TypeError` in the host environment
(FormData construction requires a form element), so the callable rejects
before any handler call.  Otherwise the snapshot is built from the form,
the handler — when it is a function — is invoked via `handler.call(this,
event, form, formData)`, and if `closeOnSubmit` is set the host `close`
runs afterwards. -/
def onSubmitForm (st : AppState) (content : Content) (selector : String)
    (cfg : FormConfig) (ev : Nat) : SubmitResult :=
  let e0 : List Eff := [.preventedE ev]
  match lookupA content selector with
  | none => ⟨st, e0, true⟩
  | some form =>
      let formData := form
      let e1 := e0 ++ (match cfg.handler with
        | some h => [Eff.handlerCalledE h ev form formData]
        | none => [])
      if cfg.closeOnSubmit then
        let c := close st
        ⟨c.1, e1 ++ c.2, false⟩
      else ⟨st, e1, false⟩

/-- `#onChangeForm` (source lines 237-240): looks the form up (unused) and
delegates to the submit path exactly when `submitOnChange` is set. -/
def onChangeForm (st : AppState) (content : Content) (selector : String)
    (cfg : FormConfig) (ev : Nat) : SubmitResult :=
  if cfg.submitOnChange then onSubmitForm st content selector cfg ev
  else ⟨st, [], false⟩

/-- Number of submit-path invocations recorded in a trace: every execution
of `#onSubmitForm` begins with its `event.preventDefault()` action. -/
def countPrevented : List Eff → Nat
  | [] => 0
  | .preventedE _ :: tr => 1 + countPrevented tr
  | _ :: tr => countPrevented tr

/-- Number of delegations to the host's own close procedure in a trace. -/
def countSuperClose : List Eff → Nat
  | [] => 0
  | .superCloseE :: tr => 1 + countSuperClose tr
  | _ :: tr => countSuperClose tr

/-! ## The template loader (`vueGetTemplate`, VueGetTemplate file lines 305-311)

Compiled modules are identified by naturals; the SFC loader is an
uninterpreted function from paths to modules.  The `VuePartials` module
cache is threaded explicitly. -/

/-- `vueGetTemplate(path, id)`: returns the cached module when `path` is a
cache key; otherwise loads and compiles the module and stores it under
`id ?? path`.  The third component records whether a load occurred. -/
def vueGetTemplate (cache : List (String × Nat)) (loader : String → Nat)
    (path : String) (id : Option String) : Nat × List (String × Nat) × Bool :=
  match lookupA cache path with
  | some m => (m, cache, false)
  | none =>
      let m := loader path
      (m, setA cache (id.getD path) m, true)

/-! ## Mounted-instance accounting over effect traces (for the C2 invariant)

`effDelta pid e` is the change an effect makes to the number of mounted
instances for part identifier `pid`; `bal` sums it over a trace.  The
claim "at most one mounted instance per part identifier at every point"
is: along every prefix of the host's effect trace the running balance
stays within `[0, 1]`.  `safeFrom b pid tr` checks that bound along `tr`
starting from balance `b`. -/

/-- Change in the number of mounted instances of part `pid` caused by one
effect. -/
def effDelta (pid : String) : Eff → Int
  | .mountE p _ => if p = pid then 1 else 0
  | .unmountE p _ => if p = pid then -1 else 0
  | _ => 0

/-- Net change in the number of mounted instances of part `pid` over a
trace. -/
def bal (pid : String) : List Eff → Int
  | [] => 0
  | e :: tr => effDelta pid e + bal pid tr

/-- `safeFrom b pid tr`: starting from `b` mounted instances of part
`pid`, the running count stays in `[0, 1]` after every effect of `tr`. -/
def safeFrom (b : Int) (pid : String) : List Eff → Bool
  | [] => true
  | e :: tr =>
      (decide (0 ≤ b + effDelta pid e) && decide (b + effDelta pid e ≤ 1)) &&
      safeFrom (b + effDelta pid e) pid tr

/-- Number of mounted instances of part `pid` recorded in an `#instances`
table (0 or 1: the entry under key `pid`, when mounted). -/
def indL (l : List (String × InstEntry)) (pid : String) : Int :=
  match lookupA l pid with
  | some e => if e.mounted then 1 else 0
  | none => 0

/-- Number of mounted instances of part `pid` in a host state. -/
def ind (st : AppState) (pid : String) : Int :=
  indL st.instances pid

/-- Each key is bound at most once (true of every table reachable from the
fresh state, matching a JS object). -/
def noDupKeys {α : Type} : List (String × α) → Bool
  | [] => true
  | kv :: t => !(t.any (fun kv2 => kv2.1 = kv.1)) && noDupKeys t

/-! ## Concrete inputs used by counterexamples and witnesses -/

/-- A typical part, registered under the key equal to its id (as in the
repository's usage example), rendering a component definition. -/
def part0 : PartDef := ⟨"app", none, some (.comp 7), none, none, none⟩

/-- A registry with the single part `part0`. -/
def reg0 : Registry := [("app", some part0)]

/-- First-render props of the specification's merge example. -/
def bagA : PropBag := [("title", "A"), ("count", "1")]

/-- The specification's merge example: render with `title A, count 1`, then
re-render (no force) with `title B`. -/
def runAB : AppState × List Eff :=
  run reg0 initState
    [Cmd.renderC none false (some bagA), Cmd.renderC none false (some [("title", "B")])]

/-- Render with `title A, count 1`, then re-render (no force) supplying the
non-title key `count` with value `2`. -/
def runACount : AppState × List Eff :=
  run reg0 initState
    [Cmd.renderC none false (some bagA), Cmd.renderC none false (some [("count", "2")])]

/-- The state after the first render of the merge example. -/
def stAfterA : AppState := (step reg0 initState (Cmd.renderC none false (some bagA))).1

/-- The second (no-force) render of the merge example, in isolation. -/
def step2AB : AppState × List Eff :=
  step reg0 stAfterA (Cmd.renderC none false (some [("title", "B")]))

/-- A registered ordinary part used next to a definition-less entry. -/
def partBar : PartDef := ⟨"bar", none, some (.comp 3), none, none, none⟩

/-- A registry whose first key has no definition (a falsy `PARTS` entry)
followed by an ordinary part. -/
def regBad : Registry := [("foo", none), ("bar", some partBar)]

/-- Default-options render cycle over `regBad`. -/
def cycleBad : AppState × List Eff × Bool :=
  renderCycle regBad initState (configureOpts regBad none false none)

/-- A form configuration with a function handler and `closeOnSubmit`. -/
def cfgClose : FormConfig := ⟨some 5, true, false⟩

/-- A form configuration with a function handler, no flags set. -/
def cfgPlain : FormConfig := ⟨some 5, false, false⟩

/-- A host state with one mounted instance for part `app`. -/
def stMounted : AppState :=
  ⟨[("app", ⟨.direct 9, true⟩)], [("app", bagA)], ["app"]⟩

/-! ## Association-list lemmas -/

theorem lookupA_setA_self {α : Type} (l : List (String × α)) (k : String) (v : α) :
    lookupA (setA l k v) k = some v := by
  induction l with
  | nil => simp [lookupA, setA]
  | cons kv t ih =>
      by_cases h : kv.1 = k
      · simp [setA, lookupA, h]
      · simp [setA, lookupA, h, ih]

theorem lookupA_setA_ne {α : Type} (l : List (String × α)) (k k' : String) (v : α)
    (h : k' ≠ k) : lookupA (setA l k v) k' = lookupA l k' := by
  induction l with
  | nil => simp [lookupA, setA, Ne.symm h]
  | cons kv t ih =>
      by_cases hk : kv.1 = k
      · simp [setA, lookupA, hk, Ne.symm h]
      · by_cases hk' : kv.1 = k' <;> simp [setA, lookupA, hk, hk', h, ih]

/-! ## Trace-counting lemmas -/

theorem countPrevented_append (l1 l2 : List Eff) :
    countPrevented (l1 ++ l2) = countPrevented l1 + countPrevented l2 := by
  induction l1 with
  | nil => simp [countPrevented]
  | cons e t ih => cases e <;> simp [countPrevented, ih] <;> omega

theorem countSuperClose_append (l1 l2 : List Eff) :
    countSuperClose (l1 ++ l2) = countSuperClose l1 + countSuperClose l2 := by
  induction l1 with
  | nil => simp [countSuperClose]
  | cons e t ih => cases e <;> simp [countSuperClose, ih] <;> omega

theorem countPrevented_closeUnmountEffs (l : List (String × InstEntry)) :
    countPrevented (closeUnmountEffs l) = 0 := by
  induction l with
  | nil => rfl
  | cons ke t ih =>
      by_cases h : ke.2.mounted <;>
        simp [closeUnmountEffs, h, countPrevented_append, countPrevented, ih]

theorem countSuperClose_closeUnmountEffs (l : List (String × InstEntry)) :
    countSuperClose (closeUnmountEffs l) = 0 := by
  induction l with
  | nil => rfl
  | cons ke t ih =>
      by_cases h : ke.2.mounted <;>
        simp [closeUnmountEffs, h, countSuperClose_append, countSuperClose, ih]

theorem countPrevented_close (st : AppState) : countPrevented (close st).2 = 0 := by
  simp [close, countPrevented_append, countPrevented_closeUnmountEffs, countPrevented]

theorem countSuperClose_close (st : AppState) : countSuperClose (close st).2 = 1 := by
  simp [close, countSuperClose_append, countSuperClose_closeUnmountEffs, countSuperClose]

/-- Every execution of the submit callable performs exactly one
`preventDefault`, i.e. counts as exactly one submit-path invocation. -/
theorem countPrevented_onSubmitForm (st : AppState) (content : Content) (selector : String)
    (cfg : FormConfig) (ev : Nat) :
    countPrevented (onSubmitForm st content selector cfg ev).effects = 1 := by
  unfold onSubmitForm
  cases h : lookupA content selector with
  | none => simp [countPrevented]
  | some form =>
      cases hh : cfg.handler <;> by_cases hc : cfg.closeOnSubmit <;>
        simp [hc, countPrevented_append, countPrevented, countPrevented_close]

/-! ## Claim C6 (error handling of a selector miss in the submit callable) -/

/-- Claim C6, counterexample: with a content element in which the
configured selector `form.missing` matches no form, the submit callable
does not silently return: the form-data construction (`new
FormDataExtended(null)`) throws, so the callable rejects (`thrown = true`)
and in particular never reaches the handler or the close (the trace stops
at `preventDefault`).  The claim's "without propagating any error" is
therefore false at this input. -/
theorem c6_counterexample :
    (onSubmitForm initState [("form.other", 3)] "form.missing" cfgClose 0).thrown = true ∧
    (onSubmitForm initState [("form.other", 3)] "form.missing" cfgClose 0).effects =
      [.preventedE 0] ∧
    countSuperClose (onSubmitForm initState [("form.other", 3)] "form.missing" cfgClose 0).effects = 0 := by
  decide

/-- Claim C6, amended: for every invocation of the submit callable whose
selector matches no form element in the content, the callable does not
invoke the configured handler and leaves the host state untouched, but it
does not silently return: it propagates the error thrown by the form-data
construction (its only prior action is `preventDefault`). -/
theorem c6_selector_miss_throws (st : AppState) (content : Content) (selector : String)
    (cfg : FormConfig) (ev : Nat) (hmiss : lookupA content selector = none) :
    (onSubmitForm st content selector cfg ev).thrown = true ∧
    (onSubmitForm st content selector cfg ev).effects = [.preventedE ev] ∧
    (onSubmitForm st content selector cfg ev).state = st := by
  unfold onSubmitForm
  simp [hmiss]

/-- Witness for `c6_selector_miss_throws` at a concrete input. -/
theorem c6_selector_miss_throws_witness :
    lookupA ([] : Content) "form" = none ∧
    ((onSubmitForm initState [] "form" cfgClose 0).thrown = true ∧
     (onSubmitForm initState [] "form" cfgClose 0).effects = [.preventedE 0] ∧
     (onSubmitForm initState [] "form" cfgClose 0).state = initState) :=
  ⟨by decide, c6_selector_miss_throws initState [] "form" cfgClose 0 (by decide)⟩

/-! ## Claim C7 (change callable delegates to the submit path iff `submitOnChange`) -/

/-- Claim C7: for every invocation of the change callable on a part whose
form configuration sets the submit-on-change flag, exactly one submit-path
invocation occurs (counted by the submit path's leading `preventDefault`);
when the flag is not set, the change callable performs no submit. -/
theorem c7_change_submit_count (st : AppState) (content : Content) (selector : String)
    (cfg : FormConfig) (ev : Nat) :
    countPrevented (onChangeForm st content selector cfg ev).effects =
      if cfg.submitOnChange then 1 else 0 := by
  unfold onChangeForm
  by_cases h : cfg.submitOnChange
  · simp [h, countPrevented_onSubmitForm]
  · simp [h, countPrevented]

/-! ## Claim C8 (submit with `closeOnSubmit` invokes the handler then closes once) -/

/-- Claim C8: for every form submission on a part whose configuration sets
`closeOnSubmit` and whose handler is a function, and whose selector matches
a form, the handler is invoked with the event, the form element and the
form-data snapshot, and afterwards the host is closed exactly once (the
trace is `preventDefault`, the handler call, then the close effects, which
contain exactly one delegation to the host's own close, and the tracked
instance table is empty afterwards); without the flag no close occurs. -/
theorem c8_submit_close_once (st : AppState) (content : Content) (selector : String)
    (cfg : FormConfig) (ev form h : Nat)
    (hf : lookupA content selector = some form) (hh : cfg.handler = some h) :
    (cfg.closeOnSubmit = true →
      (onSubmitForm st content selector cfg ev).effects =
        [.preventedE ev, .handlerCalledE h ev form form] ++ (close st).2 ∧
      countSuperClose (onSubmitForm st content selector cfg ev).effects = 1 ∧
      (onSubmitForm st content selector cfg ev).state.instances = []) ∧
    (cfg.closeOnSubmit = false →
      countSuperClose (onSubmitForm st content selector cfg ev).effects = 0 ∧
      (onSubmitForm st content selector cfg ev).effects =
        [.preventedE ev, .handlerCalledE h ev form form]) := by
  constructor
  · intro hc
    unfold onSubmitForm
    simp [hf, hh, hc, close, countSuperClose_append, countSuperClose,
      countSuperClose_closeUnmountEffs]
  · intro hc
    unfold onSubmitForm
    simp [hf, hh, hc, countSuperClose]

/-- Witness for `c8_submit_close_once` at a concrete input. -/
theorem c8_submit_close_once_witness :
    lookupA [("form", 3)] "form" = some 3 ∧ cfgClose.handler = some 5 ∧
    cfgClose.closeOnSubmit = true ∧
    ((onSubmitForm stMounted [("form", 3)] "form" cfgClose 0).effects =
       [.preventedE 0, .handlerCalledE 5 0 3 3] ++ (close stMounted).2 ∧
     countSuperClose (onSubmitForm stMounted [("form", 3)] "form" cfgClose 0).effects = 1 ∧
     (onSubmitForm stMounted [("form", 3)] "form" cfgClose 0).state.instances = []) :=
  ⟨by decide, by decide, by decide,
   (c8_submit_close_once stMounted [("form", 3)] "form" cfgClose 0 3 5
     (by decide) (by decide)).1 (by decide)⟩

/-! ## Claim C10 (template cache looked up by path, populated under the id) -/

/-- A concrete SFC loader for witnesses. -/
def loader42 : String → Nat := fun _ => 42

/-- Claim C10: the template cache is looked up by path but populated under
the optional id.  For a path not yet cached: two successive calls with that
path and no id load once, then return the same cached module without a
second load; whereas a first call that supplies an id different from the
path stores the result only under the id (the path itself is not a cache
key afterwards), so a later call with the same path loads again. -/
theorem c10_cache_by_path_store_by_id (cache : List (String × Nat)) (loader : String → Nat)
    (path i : String) (hmiss : lookupA cache path = none) (hne : i ≠ path) :
    ((vueGetTemplate cache loader path none).2.2 = true ∧
     (vueGetTemplate (vueGetTemplate cache loader path none).2.1 loader path none).2.2 = false ∧
     (vueGetTemplate (vueGetTemplate cache loader path none).2.1 loader path none).1 =
       (vueGetTemplate cache loader path none).1 ∧
     (vueGetTemplate (vueGetTemplate cache loader path none).2.1 loader path none).2.1 =
       (vueGetTemplate cache loader path none).2.1) ∧
    (lookupA (vueGetTemplate cache loader path (some i)).2.1 i =
       some (vueGetTemplate cache loader path (some i)).1 ∧
     lookupA (vueGetTemplate cache loader path (some i)).2.1 path = none ∧
     (vueGetTemplate (vueGetTemplate cache loader path (some i)).2.1 loader path none).2.2 = true) := by
  have h1 : vueGetTemplate cache loader path none =
      (loader path, setA cache path (loader path), true) := by
    simp [vueGetTemplate, hmiss]
  have h2 : vueGetTemplate cache loader path (some i) =
      (loader path, setA cache i (loader path), true) := by
    simp [vueGetTemplate, hmiss]
  have hpi : lookupA (setA cache i (loader path)) path = none := by
    rw [lookupA_setA_ne cache i path (loader path) (Ne.symm hne)]
    exact hmiss
  constructor
  · rw [h1]
    simp [vueGetTemplate, lookupA_setA_self]
  · rw [h2]
    simp [vueGetTemplate, lookupA_setA_self, hpi]

/-- Witness for `c10_cache_by_path_store_by_id` at a concrete input. -/
theorem c10_cache_by_path_store_by_id_witness :
    lookupA ([] : List (String × Nat)) "app.vue" = none ∧ ("tpl" : String) ≠ "app.vue" ∧
    ((vueGetTemplate ([] : List (String × Nat)) loader42 "app.vue" none).2.2 = true ∧
     lookupA (vueGetTemplate ([] : List (String × Nat)) loader42 "app.vue" (some "tpl")).2.1 "app.vue" = none) :=
  ⟨by decide, by decide,
   (c10_cache_by_path_store_by_id [] loader42 "app.vue" "tpl" (by decide) (by decide)).1.1,
   (c10_cache_by_path_store_by_id [] loader42 "app.vue" "tpl" (by decide) (by decide)).2.2.1⟩

/-! ## Claim C9 (source precedence and wrapping when creating an instance) -/

/-- Claim C9: when the render hook creates a new instance for a requested
part (none tracked yet), the mountable source is resolved with fixed
precedence `app`, then `component`, then `template`; the reactive prop bag
is seeded from the caller props, else the part's declared props, else the
empty object; and a resolved value without a `mount` function is wrapped
by `createApp` together with that bag.  The created entry and its bag are
what the hook stores. -/
theorem c9_source_precedence (st : AppState) (opts : RenderOpts) (key : String)
    (part : PartDef) (hreq : opts.parts.contains key = true)
    (hnew : lookupA st.instances part.id = none) :
    (lookupA (renderHTMLPart st opts key (some part)).1.instances part.id =
       some ⟨mkInstance part (seedProps part opts), false⟩ ∧
     lookupA (renderHTMLPart st opts key (some part)).1.props part.id =
       some (seedProps part opts)) ∧
    (∀ v, part.app = some v → resolveSource part = v) ∧
    (part.app = none → ∀ v, part.component = some v → resolveSource part = v) ∧
    (part.app = none → part.component = none → ∀ v, part.template = some v →
       resolveSource part = v) ∧
    (∀ bag n, resolveSource part = .appV n → mkInstance part bag = .direct n) ∧
    (∀ bag, hasMountFn (resolveSource part) = false →
       mkInstance part bag = .created (resolveSource part) bag) ∧
    (∀ ps, opts.props = some ps → seedProps part opts = ps) ∧
    (opts.props = none → ∀ ps, part.props = some ps → seedProps part opts = ps) ∧
    (opts.props = none → part.props = none → seedProps part opts = []) := by
  refine ⟨?_, ?_, ?_, ?_, ?_, ?_, ?_, ?_, ?_⟩
  · have hreq' : key ∈ opts.parts := by simpa using hreq
    constructor
    · simp [renderHTMLPart, hreq', hnew, lookupA_setA_self]
    · simp [renderHTMLPart, hreq', hnew, lookupA_setA_self]
  · intro v hv
    simp [resolveSource, hv, Option.orElse]
  · intro ha v hv
    simp [resolveSource, ha, hv, Option.orElse]
  · intro ha hc v hv
    simp [resolveSource, ha, hc, hv, Option.orElse]
  · intro bag n hn
    simp [mkInstance, hn]
  · intro bag hm
    rcases hr : resolveSource part with _ | n | n
    · simp [mkInstance, hr]
    · rw [hr] at hm
      simp [hasMountFn] at hm
    · simp [mkInstance, hr]
  · intro ps hps
    simp [seedProps, hps, Option.orElse]
  · intro hno ps hps
    simp [seedProps, hno, hps, Option.orElse]
  · intro hno hpp
    simp [seedProps, hno, hpp, Option.orElse]

/-- Witness for `c9_source_precedence` at a concrete input. -/
theorem c9_source_precedence_witness :
    (⟨["app"], false, none⟩ : RenderOpts).parts.contains "app" = true ∧
    lookupA initState.instances part0.id = none ∧
    lookupA (renderHTMLPart initState ⟨["app"], false, none⟩ "app" (some part0)).1.instances
        part0.id =
      some ⟨mkInstance part0 (seedProps part0 ⟨["app"], false, none⟩), false⟩ :=
  ⟨by decide, by decide,
   ((c9_source_precedence initState ⟨["app"], false, none⟩ "app" part0
      (by decide) (by decide)).1).1⟩

/-! ## Claim C5 (close unmounts all, empties the table, then delegates) -/

/-- When every tracked instance is mounted (true of every reachable state),
the close loop's effects are exactly one unmount per entry, in order. -/
theorem closeUnmountEffs_all_mounted (l : List (String × InstEntry))
    (h : ∀ ke ∈ l, ke.2.mounted = true) :
    closeUnmountEffs l = l.map (fun ke => Eff.unmountE ke.1 ke.2.inst) := by
  induction l with
  | nil => rfl
  | cons ke t ih =>
      have hh := h ke (by simp)
      simp [closeUnmountEffs, hh, ih (fun x hx => h x (by simp [hx]))]

/-- Claim C5: the close operation unmounts every tracked instance (one
unmount per entry, in table order), leaves the mounted-instance table
empty, and then delegates to the host's own close procedure exactly once;
when no instances are tracked its effects are just that delegation. -/
theorem c5_close_unmounts_all (st : AppState)
    (hm : ∀ ke ∈ st.instances, ke.2.mounted = true) :
    (close st).1.instances = [] ∧
    (close st).2 =
      st.instances.map (fun ke => Eff.unmountE ke.1 ke.2.inst) ++ [.superCloseE] ∧
    countSuperClose (close st).2 = 1 ∧
    (st.instances = [] → (close st).2 = [.superCloseE]) := by
  refine ⟨rfl, ?_, countSuperClose_close st, ?_⟩
  · simp [close, closeUnmountEffs_all_mounted st.instances hm]
  · intro h0
    simp [close, h0, closeUnmountEffs]

/-- Witness for `c5_close_unmounts_all` at a concrete input. -/
theorem c5_close_unmounts_all_witness :
    (close stMounted).1.instances = [] ∧
    (close stMounted).2 = [.unmountE "app" (.direct 9), .superCloseE] :=
  ⟨(c5_close_unmounts_all stMounted (by decide)).1, by decide⟩

/-! ## Claim C1 (prop merging on a second render without force) -/

/-- The title-only merge gives `title` the caller-supplied value when one
is supplied, else keeps the existing one. -/
theorem mergeTitleOnly_title (bag : PropBag) (op : Option PropBag) :
    getProp (mergeTitleOnly bag op) "title" =
      (op.bind (fun ps => getProp ps "title")).orElse (fun _ => getProp bag "title") := by
  unfold mergeTitleOnly
  split
  · next v heq =>
      rw [heq]
      simp [getProp, setProp, lookupA_setA_self]
  · next heq =>
      rw [heq]
      cases hp : op.bind (fun ps => getProp ps "title") with
      | some v => rw [hp] at heq; simp [Option.orElse] at heq
      | none => rw [hp] at heq; simpa [Option.orElse] using heq

/-- The title-only merge leaves every non-title property unchanged. -/
theorem mergeTitleOnly_other (bag : PropBag) (op : Option PropBag) (k : String)
    (hk : k ≠ "title") : getProp (mergeTitleOnly bag op) k = getProp bag k := by
  unfold mergeTitleOnly
  split
  · next v heq =>
      simp only [getProp, setProp]
      exact lookupA_setA_ne bag "title" k v hk
  · rfl

/-- Claim C1, counterexample: after a first render with `title A, count 1`,
a second render without force supplying `count 2` leaves the reactive bag
at `title A, count 1`: the supplied non-title key is ignored rather than
merged, although the claim requires the resulting state to hold
`count 2`.  (Only the `title` key is merged by the code; the general merge
is commented out.) -/
theorem c1_counterexample :
    lookupA runACount.1.props "app" = some [("title", "A"), ("count", "1")] ∧
    ∀ bag, lookupA runACount.1.props "app" = some bag → getProp bag "count" ≠ some "2" := by
  refine ⟨by decide, ?_⟩
  intro bag hb
  have h0 : lookupA runACount.1.props "app" = some [("title", "A"), ("count", "1")] := by
    decide
  rw [h0] at hb
  cases hb
  decide

/-- Claim C1, amended: on a second render of a mounted part without force,
only the `title` property is merged into the existing reactive bag: a
supplied `title` overrides the existing one (kept when none is supplied),
every other existing key is preserved, and any non-title key supplied on
the second render is ignored.  The bag is updated in place, not replaced.
The specification's own example (`title A, count 1` then `title B` gives
`title B, count 1`) does hold. -/
theorem c1_title_only_merge (reg : Registry) (st : AppState) (opts : RenderOpts)
    (key : String) (part : PartDef) (bag : PropBag)
    (hreq : opts.parts.contains key = true)
    (htarget : st.containers.contains key = true)
    (hforce : opts.force = false)
    (hbag : lookupA st.props part.id = some bag) :
    (replaceHTMLPart reg st opts key (some part) =
       ({ st with props := setA st.props part.id (mergeTitleOnly bag opts.props) }, [], false)) ∧
    (getProp (mergeTitleOnly bag opts.props) "title" =
       (opts.props.bind (fun ps => getProp ps "title")).orElse
         (fun _ => getProp bag "title")) ∧
    (∀ k, k ≠ "title" → getProp (mergeTitleOnly bag opts.props) k = getProp bag k) ∧
    lookupA runAB.1.props "app" = some [("title", "B"), ("count", "1")] := by
  refine ⟨?_, mergeTitleOnly_title bag opts.props, mergeTitleOnly_other bag opts.props, by decide⟩
  have hreq' : key ∈ opts.parts := by simpa using hreq
  have htarget' : key ∈ st.containers := by simpa using htarget
  simp [replaceHTMLPart, hreq', htarget', hforce, hbag]

/-- Witness for `c1_title_only_merge` at a concrete input (the second
render of the specification's merge example). -/
theorem c1_title_only_merge_witness :
    replaceHTMLPart reg0 stAfterA ⟨["app"], false, some [("title", "B")]⟩ "app" (some part0) =
      ({ stAfterA with
          props := setA stAfterA.props part0.id
            (mergeTitleOnly bagA (some [("title", "B")])) }, [], false) :=
  (c1_title_only_merge reg0 stAfterA ⟨["app"], false, some [("title", "B")]⟩ "app" part0 bagA
    (by decide) (by decide) rfl (by decide)).1

/-! ## Claim C3 (rendering with a definition-less part identifier) -/

/-- Claim C3, counterexample: rendering a registry whose key `foo` has no
definition (with default options, so `foo` is among the requested parts)
emits the warning and skips `foo` in the render hook, but the render call
then THROWS in the replace hook (`thrown = true`), and the other requested
part `bar` — although resolved by the render hook — is never mounted (the
trace contains no mount).  The claim's "does not throw; all other requested
parts are still processed" is false at this input. -/
theorem c3_counterexample :
    cycleBad.2.2 = true ∧
    cycleBad.2.1 = [.warnE "Part foo is not a supported template part",
                    .logE "Setting Up Vue Instance bar"] := by
  decide

/-- Claim C3, amended: a registry entry with no definition makes the render
hook emit a warning and skip that part (without touching the state and
without throwing), and other requested parts are still resolved by the
render hook; but when such a key is among the requested parts the replace
hook throws a `TypeError` at it, aborting the mounting of the parts after
it in registry order. -/
theorem c3_unknown_part_warn_then_throw (reg : Registry) (st : AppState)
    (opts : RenderOpts) (key : String) :
    (renderHTMLPart st opts key none =
       (st, [.warnE (s!"Part {key} is not a supported template part")], none)) ∧
    (opts.parts.contains key = true →
       (replaceHTMLPart reg st opts key none).2.2 = true) ∧
    (renderParts regBad (configureOpts regBad none false none) initState).2.2 =
       [("bar", Instance.created (.comp 3) [])] := by
  refine ⟨rfl, ?_, by decide⟩
  intro hreq
  have hreq' : key ∈ opts.parts := by simpa using hreq
  unfold replaceHTMLPart
  simp [hreq']
  split
  · rfl
  · rfl

/-- Witness for `c3_unknown_part_warn_then_throw` at a concrete input. -/
theorem c3_unknown_part_warn_then_throw_witness :
    (renderHTMLPart initState (configureOpts regBad none false none) "foo" none =
       (initState, [.warnE "Part foo is not a supported template part"], none)) ∧
    (replaceHTMLPart regBad initState (configureOpts regBad none false none) "foo" none).2.2 =
      true :=
  ⟨(c3_unknown_part_warn_then_throw regBad initState
      (configureOpts regBad none false none) "foo").1,
   (c3_unknown_part_warn_then_throw regBad initState
      (configureOpts regBad none false none) "foo").2.1 (by decide)⟩

/-! ## Claim C4 (replace hook on an existing container without force) -/

/-- Claim C4, counterexample: on the second render of the merge example the
container for `app` exists and force is not set; the replace hook emits NO
warning (the whole second render cycle emits no effect at all — the warning
in the source is commented out) and does NOT leave the existing state
untouched: the bag's `title` changes from `A` to `B`.  Both halves of the
claim are false at this input. -/
theorem c4_counterexample :
    step2AB.2 = [] ∧
    lookupA stAfterA.props "app" = some [("title", "A"), ("count", "1")] ∧
    lookupA step2AB.1.props "app" = some [("title", "B"), ("count", "1")] := by
  decide

/-- Claim C4, amended: for every part whose container exists when the
replace hook runs without force, the hook emits no effect (in particular no
warning, no mount and no unmount), does not throw, leaves the mounted
instance and the containers untouched, and updates only the part's reactive
prop bag, by the title-only merge. -/
theorem c4_skip_branch_updates_title (reg : Registry) (st : AppState) (opts : RenderOpts)
    (key : String) (part : PartDef) (bag : PropBag)
    (hreq : opts.parts.contains key = true)
    (htarget : st.containers.contains key = true)
    (hforce : opts.force = false)
    (hbag : lookupA st.props part.id = some bag) :
    (replaceHTMLPart reg st opts key (some part)).2.1 = [] ∧
    (replaceHTMLPart reg st opts key (some part)).2.2 = false ∧
    (replaceHTMLPart reg st opts key (some part)).1.instances = st.instances ∧
    (replaceHTMLPart reg st opts key (some part)).1.containers = st.containers ∧
    (replaceHTMLPart reg st opts key (some part)).1.props =
      setA st.props part.id (mergeTitleOnly bag opts.props) := by
  have hreq' : key ∈ opts.parts := by simpa using hreq
  have htarget' : key ∈ st.containers := by simpa using htarget
  refine ⟨?_, ?_, ?_, ?_, ?_⟩ <;> simp [replaceHTMLPart, hreq', htarget', hforce, hbag]

/-- Witness for `c4_skip_branch_updates_title` at a concrete input (a
re-render without force and without caller props). -/
theorem c4_skip_branch_updates_title_witness :
    (replaceHTMLPart reg0 stAfterA ⟨["app"], false, none⟩ "app" (some part0)).2.1 = [] ∧
    (replaceHTMLPart reg0 stAfterA ⟨["app"], false, none⟩ "app" (some part0)).1.instances =
      stAfterA.instances :=
  ⟨(c4_skip_branch_updates_title reg0 stAfterA ⟨["app"], false, none⟩ "app" part0 bagA
      (by decide) (by decide) rfl (by decide)).1,
   (c4_skip_branch_updates_title reg0 stAfterA ⟨["app"], false, none⟩ "app" part0 bagA
      (by decide) (by decide) rfl (by decide)).2.2.1⟩

/-! ## Claim C2: trace-accounting lemmas -/

theorem bal_append (pid : String) (l1 l2 : List Eff) :
    bal pid (l1 ++ l2) = bal pid l1 + bal pid l2 := by
  induction l1 with
  | nil => simp [bal]
  | cons e t ih => simp [bal, ih]; ring

theorem safeFrom_append (b : Int) (pid : String) (l1 l2 : List Eff) :
    safeFrom b pid (l1 ++ l2) =
      (safeFrom b pid l1 && safeFrom (b + bal pid l1) pid l2) := by
  induction l1 generalizing b with
  | nil => simp [safeFrom, bal]
  | cons e t ih => simp [safeFrom, bal, ih, Bool.and_assoc, add_assoc]

/-- A trace that is safe from a balance within `[0, 1]` keeps the running
balance within `[0, 1]` at every prefix. -/
theorem safeFrom_prefix_bound (pid : String) (p : List Eff) :
    ∀ (tr : List Eff) (b : Int), safeFrom b pid tr = true → 0 ≤ b → b ≤ 1 →
      ∀ q, tr = p ++ q → 0 ≤ b + bal pid p ∧ b + bal pid p ≤ 1 := by
  induction p with
  | nil =>
      intro tr b _ h0 h1 q _
      simp [bal]
      omega
  | cons e t ih =>
      intro tr b hs h0 h1 q hq
      subst hq
      simp only [List.cons_append, safeFrom, Bool.and_eq_true, decide_eq_true_eq] at hs
      obtain ⟨⟨hl, hr⟩, hrest⟩ := hs
      have hmain := ih (t ++ q) (b + effDelta pid e) hrest hl hr q rfl
      simp only [bal] at hmain ⊢
      omega

/-- A step's effect batch is accounted for: safe from the incoming balance
and landing on the outgoing balance. -/
def StepOK (b : Int) (δ : List Eff) (b' : Int) (pid : String) : Prop :=
  safeFrom b pid δ = true ∧ b + bal pid δ = b'

theorem StepOK.comp {b b1 b2 : Int} {δ1 δ2 : List Eff} {pid : String}
    (h1 : StepOK b δ1 b1 pid) (h2 : StepOK b1 δ2 b2 pid) :
    StepOK b (δ1 ++ δ2) b2 pid := by
  obtain ⟨s1, e1⟩ := h1
  obtain ⟨s2, e2⟩ := h2
  constructor
  · rw [safeFrom_append, s1, e1, s2]
    rfl
  · rw [bal_append]
    omega

theorem StepOK.nil (b : Int) (pid : String) : StepOK b [] b pid :=
  ⟨rfl, by simp [bal]⟩

theorem stepOK_single (b : Int) (e : Eff) (pid : String)
    (h0 : 0 ≤ b + effDelta pid e) (h1 : b + effDelta pid e ≤ 1) :
    StepOK b [e] (b + effDelta pid e) pid := by
  constructor
  · simp [safeFrom, h0, h1]
  · simp [bal]

/-- A batch of delta-free effects is safe from any balance in `[0, 1]`. -/
theorem stepOK_of_zero (b : Int) (pid : String) (l : List Eff)
    (h0 : 0 ≤ b) (h1 : b ≤ 1) (hz : ∀ e ∈ l, effDelta pid e = 0) :
    StepOK b l b pid := by
  induction l with
  | nil => exact StepOK.nil b pid
  | cons e t ih =>
      have he := hz e (by simp)
      have ht := ih (fun x hx => hz x (by simp [hx]))
      constructor
      · simp only [safeFrom, he, add_zero]
        simp [h0, h1, ht.1]
      · simp only [bal, he, zero_add]
        exact ht.2

theorem indL_nonneg (l : List (String × InstEntry)) (pid : String) : 0 ≤ indL l pid := by
  unfold indL
  cases lookupA l pid with
  | none => simp
  | some e => by_cases h : e.mounted <;> simp [h]

theorem indL_le_one (l : List (String × InstEntry)) (pid : String) : indL l pid ≤ 1 := by
  unfold indL
  cases lookupA l pid with
  | none => simp
  | some e => by_cases h : e.mounted <;> simp [h]

theorem ind_nonneg (st : AppState) (pid : String) : 0 ≤ ind st pid :=
  indL_nonneg st.instances pid

theorem ind_le_one (st : AppState) (pid : String) : ind st pid ≤ 1 :=
  indL_le_one st.instances pid

theorem any_key_setA {α : Type} (t : List (String × α)) (k c : String) (v : α)
    (hc : c ≠ k) :
    (setA t k v).any (fun kv => kv.1 = c) = t.any (fun kv => kv.1 = c) := by
  induction t with
  | nil => simp [setA, Ne.symm hc]
  | cons kv t ih =>
      by_cases hk : kv.1 = k
      · simp [setA, hk, Ne.symm hc]
      · simp [setA, hk, ih]

theorem noDupKeys_setA {α : Type} (l : List (String × α)) (k : String) (v : α)
    (h : noDupKeys l = true) : noDupKeys (setA l k v) = true := by
  induction l with
  | nil => simp [setA, noDupKeys]
  | cons kv t ih =>
      simp only [noDupKeys, Bool.and_eq_true, Bool.not_eq_true'] at h
      obtain ⟨hna, hnd⟩ := h
      by_cases hk : kv.1 = k
      · simp only [setA, hk, if_pos rfl, noDupKeys, Bool.and_eq_true, Bool.not_eq_true']
        refine ⟨?_, hnd⟩
        rw [← hk]
        exact hna
      · simp only [setA, hk, if_neg hk, noDupKeys, Bool.and_eq_true, Bool.not_eq_true']
        refine ⟨?_, ih hnd⟩
        rw [any_key_setA t k kv.1 v hk]
        exact hna

theorem indL_setA_self (l : List (String × InstEntry)) (pid : String) (e : InstEntry) :
    indL (setA l pid e) pid = if e.mounted then 1 else 0 := by
  simp [indL, lookupA_setA_self]

theorem indL_setA_ne (l : List (String × InstEntry)) (k pid : String) (e : InstEntry)
    (h : pid ≠ k) : indL (setA l k e) pid = indL l pid := by
  simp [indL, lookupA_setA_ne l k pid e h]

/-- The render-hook loop body is mount-balance-safe for every part
identifier, accounts its mount/unmount effects exactly, and preserves
key-uniqueness of the instance table. -/
theorem renderHTMLPart_ok (st : AppState) (opts : RenderOpts) (key : String)
    (partOpt : Option PartDef) (pid : String) (hd : noDupKeys st.instances = true) :
    (StepOK (ind st pid) (renderHTMLPart st opts key partOpt).2.1
       (ind (renderHTMLPart st opts key partOpt).1 pid) pid) ∧
    noDupKeys (renderHTMLPart st opts key partOpt).1.instances = true := by
  rcases partOpt with _ | part
  · refine ⟨?_, hd⟩
    refine stepOK_of_zero _ pid _ (ind_nonneg st pid) (ind_le_one st pid) ?_
    intro e he
    simp [renderHTMLPart] at he
    subst he
    rfl
  · by_cases hk : opts.parts.contains key = true
    · have hk' : key ∈ opts.parts := by simpa using hk
      rcases hl : lookupA st.instances part.id with _ | e
      · -- no tracked instance: create only
        have hval : renderHTMLPart st opts key (some part) =
            ({ st with
                instances := setA st.instances part.id
                  ⟨mkInstance part (seedProps part opts), false⟩,
                props := setA st.props part.id (seedProps part opts) },
             [.logE (s!"Setting Up Vue Instance {part.id}")],
             some (key, mkInstance part (seedProps part opts))) := by
          simp [renderHTMLPart, hk', hl, lookupA_setA_self]
        have hind : ind ({ st with
            instances := setA st.instances part.id
              ⟨mkInstance part (seedProps part opts), false⟩,
            props := setA st.props part.id (seedProps part opts) }) pid = ind st pid := by
          by_cases hpid : pid = part.id
          · rw [hpid]
            simp [ind, indL, lookupA_setA_self, hl]
          · simp [ind, indL_setA_ne _ _ _ _ hpid]
        simp only [hval]
        rw [hind]
        refine ⟨?_, noDupKeys_setA _ _ _ hd⟩
        refine stepOK_of_zero _ pid _ (ind_nonneg st pid) (ind_le_one st pid) ?_
        intro x hx
        simp at hx
        subst hx
        rfl
      · by_cases hf : opts.force = true
        · by_cases hm : e.mounted = true
          · -- force re-render of a mounted part: unmount, then create
            have hval : renderHTMLPart st opts key (some part) =
                ({ st with
                    instances := setA (setA st.instances part.id ⟨e.inst, false⟩) part.id
                      ⟨mkInstance part (seedProps part opts), false⟩,
                    props := setA st.props part.id (seedProps part opts) },
                 [.unmountE part.id e.inst, .logE (s!"Setting Up Vue Instance {part.id}")],
                 some (key, mkInstance part (seedProps part opts))) := by
              simp [renderHTMLPart, hk', hl, hf, hm, lookupA_setA_self]
            simp only [hval]
            refine ⟨?_, noDupKeys_setA _ _ _ (noDupKeys_setA _ _ _ hd)⟩
            by_cases hpid : pid = part.id
            · have hb : ind st pid = 1 := by
                rw [hpid]
                simp [ind, indL, hl, hm]
              have hb' : ind ({ st with
                  instances := setA (setA st.instances part.id ⟨e.inst, false⟩) part.id
                    ⟨mkInstance part (seedProps part opts), false⟩,
                  props := setA st.props part.id (seedProps part opts) }) pid = 0 := by
                rw [hpid]
                simp [ind, indL, lookupA_setA_self]
              rw [hb, hb']
              constructor
              · norm_num [safeFrom, effDelta, hpid]
              · norm_num [bal, effDelta, hpid]
            · have hind : ind ({ st with
                  instances := setA (setA st.instances part.id ⟨e.inst, false⟩) part.id
                    ⟨mkInstance part (seedProps part opts), false⟩,
                  props := setA st.props part.id (seedProps part opts) }) pid = ind st pid := by
                simp [ind, indL_setA_ne _ _ _ _ hpid]
              rw [hind]
              refine stepOK_of_zero _ pid _ (ind_nonneg st pid) (ind_le_one st pid) ?_
              intro x hx
              simp at hx
              rcases hx with hx | hx <;> subst hx <;>
                simp [effDelta, Ne.symm hpid]
          · -- force re-render of a tracked but unmounted part
            have hm' : e.mounted = false := by simpa using hm
            have hval : renderHTMLPart st opts key (some part) =
                ({ st with
                    instances := setA st.instances part.id
                      ⟨mkInstance part (seedProps part opts), false⟩,
                    props := setA st.props part.id (seedProps part opts) },
                 [.warnE "Vue warn: cannot unmount an app that is not mounted",
                  .logE (s!"Setting Up Vue Instance {part.id}")],
                 some (key, mkInstance part (seedProps part opts))) := by
              simp [renderHTMLPart, hk', hl, hf, hm', lookupA_setA_self]
            have hind : ind ({ st with
                instances := setA st.instances part.id
                  ⟨mkInstance part (seedProps part opts), false⟩,
                props := setA st.props part.id (seedProps part opts) }) pid = ind st pid := by
              by_cases hpid : pid = part.id
              · rw [hpid]
                simp [ind, indL, lookupA_setA_self, hl, hm']
              · simp [ind, indL_setA_ne _ _ _ _ hpid]
            simp only [hval]
            rw [hind]
            refine ⟨?_, noDupKeys_setA _ _ _ hd⟩
            refine stepOK_of_zero _ pid _ (ind_nonneg st pid) (ind_le_one st pid) ?_
            intro x hx
            simp at hx
            rcases hx with hx | hx <;> subst hx <;> rfl
        · -- tracked instance reused without force
          have hf' : opts.force = false := by simpa using hf
          have hval : renderHTMLPart st opts key (some part) =
              (st, [], some (key, e.inst)) := by
            simp [renderHTMLPart, hk', hl, hf']
          simp only [hval]
          exact ⟨StepOK.nil _ pid, hd⟩
    · have hk' : key ∉ opts.parts := by simpa using hk
      have hval : renderHTMLPart st opts key (some part) = (st, [], none) := by
        simp [renderHTMLPart, hk']
      rw [hval]
      exact ⟨StepOK.nil _ pid, hd⟩

/-- The replace-hook loop body is mount-balance-safe for every part
identifier, accounts its mount effects exactly, and preserves
key-uniqueness of the instance table. -/
theorem replaceHTMLPart_ok (reg : Registry) (st : AppState) (opts : RenderOpts)
    (key : String) (partOpt : Option PartDef) (pid : String)
    (hd : noDupKeys st.instances = true) :
    (StepOK (ind st pid) (replaceHTMLPart reg st opts key partOpt).2.1
       (ind (replaceHTMLPart reg st opts key partOpt).1 pid) pid) ∧
    noDupKeys (replaceHTMLPart reg st opts key partOpt).1.instances = true := by
  by_cases hk : opts.parts.contains key = true
  case neg =>
    have hk' : key ∉ opts.parts := by simpa using hk
    have hval : replaceHTMLPart reg st opts key partOpt = (st, [], false) := by
      simp [replaceHTMLPart, hk']
    simp only [hval]
    exact ⟨StepOK.nil _ pid, hd⟩
  case pos =>
  have hk' : key ∈ opts.parts := by simpa using hk
  by_cases ht : st.containers.contains key = true
  · have htm : key ∈ st.containers := by simpa using ht
    by_cases hf : opts.force = true
    · -- container present, force set: attach and mount
      rcases partOpt with _ | part
      · have hval : replaceHTMLPart reg st opts key none = (st, [], true) := by
          simp [replaceHTMLPart, hk', htm, hf]
        simp only [hval]
        exact ⟨StepOK.nil _ pid, hd⟩
      · by_cases hat : attachThrows reg st part.id = true
        · have hval : replaceHTMLPart reg st opts key (some part) = (st, [], true) := by
            simp [replaceHTMLPart, hk', htm, hf, hat]
          simp only [hval]
          exact ⟨StepOK.nil _ pid, hd⟩
        · have hat' : attachThrows reg st part.id = false := by simpa using hat
          rcases hli : lookupA st.instances part.id with _ | e
          · have hval : replaceHTMLPart reg st opts key (some part) = (st, [], true) := by
              simp [replaceHTMLPart, hk', htm, hf, hat', hli]
            simp only [hval]
            exact ⟨StepOK.nil _ pid, hd⟩
          · by_cases hm : e.mounted = true
            · have hval : replaceHTMLPart reg st opts key (some part) =
                  (st, [.warnE "Vue warn: app has already been mounted"], false) := by
                simp [replaceHTMLPart, hk', htm, hf, hat', hli, hm]
              simp only [hval]
              refine ⟨stepOK_of_zero _ pid _ (ind_nonneg st pid) (ind_le_one st pid) ?_, hd⟩
              intro x hx
              simp at hx
              subst hx
              rfl
            · have hm' : e.mounted = false := by simpa using hm
              have hval : replaceHTMLPart reg st opts key (some part) =
                  ({ st with instances := setA st.instances part.id ⟨e.inst, true⟩ },
                   [.mountE part.id e.inst], false) := by
                simp [replaceHTMLPart, hk', htm, hf, hat', hli, hm']
              simp only [hval]
              refine ⟨?_, noDupKeys_setA _ _ _ hd⟩
              by_cases hpid : pid = part.id
              · have hb : ind st pid = 0 := by
                  rw [hpid]
                  simp [ind, indL, hli, hm']
                have hb' : ind ({ st with
                    instances := setA st.instances part.id ⟨e.inst, true⟩ }) pid = 1 := by
                  rw [hpid]
                  simp [ind, indL, lookupA_setA_self]
                rw [hb, hb']
                constructor
                · norm_num [safeFrom, effDelta, hpid]
                · norm_num [bal, effDelta, hpid]
              · have hind : ind ({ st with
                    instances := setA st.instances part.id ⟨e.inst, true⟩ }) pid =
                    ind st pid := by
                  simp [ind, indL_setA_ne _ _ _ _ hpid]
                rw [hind]
                refine stepOK_of_zero _ pid _ (ind_nonneg st pid) (ind_le_one st pid) ?_
                intro x hx
                simp at hx
                subst hx
                simp [effDelta, Ne.symm hpid]
    · -- container present, no force: the skip branch (title-only update)
      have hf' : opts.force = false := by simpa using hf
      rcases partOpt with _ | part
      · have hval : replaceHTMLPart reg st opts key none = (st, [], true) := by
          simp [replaceHTMLPart, hk', htm, hf']
        simp only [hval]
        exact ⟨StepOK.nil _ pid, hd⟩
      · rcases hb : lookupA st.props part.id with _ | bag
        · have hval : replaceHTMLPart reg st opts key (some part) = (st, [], true) := by
            simp [replaceHTMLPart, hk', htm, hf', hb]
          simp only [hval]
          exact ⟨StepOK.nil _ pid, hd⟩
        · have hval : replaceHTMLPart reg st opts key (some part) =
              ({ st with props := setA st.props part.id (mergeTitleOnly bag opts.props) },
               [], false) := by
            simp [replaceHTMLPart, hk', htm, hf', hb]
          simp only [hval]
          exact ⟨StepOK.nil _ pid, hd⟩
  · -- container absent: it is created first
    have ht' : key ∉ st.containers := by simpa using ht
    rcases partOpt with _ | part
    · have hval : replaceHTMLPart reg st opts key none =
          ({ st with containers := key :: st.containers }, [], true) := by
        simp [replaceHTMLPart, hk', ht']
      simp only [hval]
      exact ⟨StepOK.nil _ pid, hd⟩
    · by_cases hat : attachThrows reg { st with containers := key :: st.containers } part.id = true
      · have hval : replaceHTMLPart reg st opts key (some part) =
            ({ st with containers := key :: st.containers }, [], true) := by
          simp [replaceHTMLPart, hk', ht', hat]
        simp only [hval]
        exact ⟨StepOK.nil _ pid, hd⟩
      · have hat' : attachThrows reg { st with containers := key :: st.containers } part.id =
            false := by simpa using hat
        rcases hli : lookupA st.instances part.id with _ | e
        · have hval : replaceHTMLPart reg st opts key (some part) =
              ({ st with containers := key :: st.containers }, [], true) := by
            simp [replaceHTMLPart, hk', ht', hat', hli]
          simp only [hval]
          exact ⟨StepOK.nil _ pid, hd⟩
        · by_cases hm : e.mounted = true
          · have hval : replaceHTMLPart reg st opts key (some part) =
                ({ st with containers := key :: st.containers },
                 [.warnE "Vue warn: app has already been mounted"], false) := by
              simp [replaceHTMLPart, hk', ht', hat', hli, hm]
            simp only [hval]
            refine ⟨stepOK_of_zero _ pid _ (ind_nonneg st pid) (ind_le_one st pid) ?_, hd⟩
            intro x hx
            simp at hx
            subst hx
            rfl
          · have hm' : e.mounted = false := by simpa using hm
            have hval : replaceHTMLPart reg st opts key (some part) =
                ({ st with
                    instances := setA st.instances part.id ⟨e.inst, true⟩,
                    containers := key :: st.containers },
                 [.mountE part.id e.inst], false) := by
              simp [replaceHTMLPart, hk', ht', hat', hli, hm']
            simp only [hval]
            refine ⟨?_, noDupKeys_setA _ _ _ hd⟩
            by_cases hpid : pid = part.id
            · have hb : ind st pid = 0 := by
                rw [hpid]
                simp [ind, indL, hli, hm']
              have hb' : ind ({ st with
                  instances := setA st.instances part.id ⟨e.inst, true⟩,
                  containers := key :: st.containers }) pid = 1 := by
                rw [hpid]
                simp [ind, indL, lookupA_setA_self]
              rw [hb, hb']
              constructor
              · norm_num [safeFrom, effDelta, hpid]
              · norm_num [bal, effDelta, hpid]
            · have hind : ind ({ st with
                  instances := setA st.instances part.id ⟨e.inst, true⟩,
                  containers := key :: st.containers }) pid = ind st pid := by
                simp [ind, indL_setA_ne _ _ _ _ hpid]
              rw [hind]
              refine stepOK_of_zero _ pid _ (ind_nonneg st pid) (ind_le_one st pid) ?_
              intro x hx
              simp at hx
              subst hx
              simp [effDelta, Ne.symm hpid]

/-- Unmount calls for entries of other parts do not change part `pid`'s
mount balance. -/
theorem closeUnmountEffs_zero_of_no_key (pid : String) (l : List (String × InstEntry))
    (h : l.any (fun kv => kv.1 = pid) = false) :
    ∀ e ∈ closeUnmountEffs l, effDelta pid e = 0 := by
  induction l with
  | nil => simp [closeUnmountEffs]
  | cons ke t ih =>
      simp only [List.any_cons, Bool.or_eq_false_iff, decide_eq_false_iff_not] at h
      obtain ⟨h1, h2⟩ := h
      intro e he
      by_cases hm : ke.2.mounted = true
      · simp [closeUnmountEffs, hm] at he
        rcases he with he | he
        · subst he
          simp [effDelta, h1]
        · exact ih h2 e he
      · have hm' : ke.2.mounted = false := by simpa using hm
        simp [closeUnmountEffs, hm'] at he
        rcases he with he | he
        · subst he
          rfl
        · exact ih h2 e he

/-- The close loop is mount-balance-safe for every part identifier and
drives the balance to zero. -/
theorem close_stepOK_aux (pid : String) (l : List (String × InstEntry))
    (hd : noDupKeys l = true) :
    StepOK (indL l pid) (closeUnmountEffs l) 0 pid := by
  induction l with
  | nil => exact ⟨rfl, by simp [indL, lookupA, bal]⟩
  | cons ke t ih =>
      simp only [noDupKeys, Bool.and_eq_true, Bool.not_eq_true'] at hd
      obtain ⟨hna, hnd⟩ := hd
      by_cases hk : ke.1 = pid
      · have hna' : t.any (fun kv => kv.1 = pid) = false := by
          rw [← hk]
          exact hna
        have htail0 : StepOK 0 (closeUnmountEffs t) 0 pid :=
          stepOK_of_zero 0 pid _ (by norm_num) (by norm_num)
            (closeUnmountEffs_zero_of_no_key pid t hna')
        by_cases hm : ke.2.mounted = true
        · have hindv : indL (ke :: t) pid = 1 := by simp [indL, lookupA, hk, hm]
          have hstep : StepOK 1 [Eff.unmountE ke.1 ke.2.inst] 0 pid := by
            constructor
            · norm_num [safeFrom, effDelta, hk]
            · norm_num [bal, effDelta, hk]
          have heq : closeUnmountEffs (ke :: t) =
              [Eff.unmountE ke.1 ke.2.inst] ++ closeUnmountEffs t := by
            simp [closeUnmountEffs, hm]
          rw [hindv, heq]
          exact hstep.comp htail0
        · have hm' : ke.2.mounted = false := by simpa using hm
          have hindv : indL (ke :: t) pid = 0 := by simp [indL, lookupA, hk, hm']
          have hstep : StepOK 0
              [Eff.warnE "Vue warn: cannot unmount an app that is not mounted"] 0 pid := by
            refine stepOK_of_zero 0 pid _ (by norm_num) (by norm_num) ?_
            intro x hx
            simp at hx
            subst hx
            rfl
          have heq : closeUnmountEffs (ke :: t) =
              [Eff.warnE "Vue warn: cannot unmount an app that is not mounted"] ++
                closeUnmountEffs t := by
            simp [closeUnmountEffs, hm']
          rw [hindv, heq]
          exact hstep.comp htail0
      · have hindv : indL (ke :: t) pid = indL t pid := by simp [indL, lookupA, hk]
        have htail := ih hnd
        by_cases hm : ke.2.mounted = true
        · have hstep : StepOK (indL t pid) [Eff.unmountE ke.1 ke.2.inst] (indL t pid) pid := by
            refine stepOK_of_zero _ pid _ (indL_nonneg t pid) (indL_le_one t pid) ?_
            intro x hx
            simp at hx
            subst hx
            simp [effDelta, hk]
          have heq : closeUnmountEffs (ke :: t) =
              [Eff.unmountE ke.1 ke.2.inst] ++ closeUnmountEffs t := by
            simp [closeUnmountEffs, hm]
          rw [hindv, heq]
          exact hstep.comp htail
        · have hm' : ke.2.mounted = false := by simpa using hm
          have hstep : StepOK (indL t pid)
              [Eff.warnE "Vue warn: cannot unmount an app that is not mounted"]
              (indL t pid) pid := by
            refine stepOK_of_zero _ pid _ (indL_nonneg t pid) (indL_le_one t pid) ?_
            intro x hx
            simp at hx
            subst hx
            rfl
          have heq : closeUnmountEffs (ke :: t) =
              [Eff.warnE "Vue warn: cannot unmount an app that is not mounted"] ++
                closeUnmountEffs t := by
            simp [closeUnmountEffs, hm']
          rw [hindv, heq]
          exact hstep.comp htail

/-- The close operation is mount-balance-safe, drives every part's balance
to zero, and leaves a key-unique (empty) table. -/
theorem close_ok (st : AppState) (pid : String) (hd : noDupKeys st.instances = true) :
    (StepOK (ind st pid) (close st).2 (ind (close st).1 pid) pid) ∧
    noDupKeys (close st).1.instances = true := by
  have h1 := close_stepOK_aux pid st.instances hd
  have h2 : StepOK 0 [Eff.superCloseE] 0 pid := by
    refine stepOK_of_zero 0 pid _ (by norm_num) (by norm_num) ?_
    intro x hx
    simp at hx
    subst hx
    rfl
  refine ⟨?_, rfl⟩
  show StepOK (ind st pid) (closeUnmountEffs st.instances ++ [Eff.superCloseE])
    (indL [] pid) pid
  exact h1.comp h2

/-- The whole render-hook loop is mount-balance-safe and preserves
key-uniqueness. -/
theorem renderParts_ok (reg : Registry) (opts : RenderOpts) :
    ∀ (st : AppState) (pid : String), noDupKeys st.instances = true →
      (StepOK (ind st pid) (renderParts reg opts st).2.1
         (ind (renderParts reg opts st).1 pid) pid) ∧
      noDupKeys (renderParts reg opts st).1.instances = true := by
  induction reg with
  | nil =>
      intro st pid hd
      exact ⟨StepOK.nil _ pid, hd⟩
  | cons kp rest ih =>
      intro st pid hd
      obtain ⟨key, p⟩ := kp
      have h1 := renderHTMLPart_ok st opts key p pid hd
      have h2 := ih (renderHTMLPart st opts key p).1 pid h1.2
      refine ⟨?_, ?_⟩
      · have hc := h1.1.comp h2.1
        simpa [renderParts] using hc
      · simpa [renderParts] using h2.2

/-- The whole replace-hook loop is mount-balance-safe and preserves
key-uniqueness, also when a thrown `TypeError` aborts it. -/
theorem replaceParts_ok (reg0 : Registry) (reg : Registry) (opts : RenderOpts) :
    ∀ (st : AppState) (pid : String), noDupKeys st.instances = true →
      (StepOK (ind st pid) (replaceParts reg0 reg opts st).2.1
         (ind (replaceParts reg0 reg opts st).1 pid) pid) ∧
      noDupKeys (replaceParts reg0 reg opts st).1.instances = true := by
  induction reg with
  | nil =>
      intro st pid hd
      exact ⟨StepOK.nil _ pid, hd⟩
  | cons kp rest ih =>
      intro st pid hd
      obtain ⟨key, p⟩ := kp
      have h1 := replaceHTMLPart_ok reg0 st opts key p pid hd
      by_cases hthr : (replaceHTMLPart reg0 st opts key p).2.2 = true
      · refine ⟨?_, ?_⟩
        · simpa [replaceParts, hthr] using h1.1
        · simpa [replaceParts, hthr] using h1.2
      · have hthr' : (replaceHTMLPart reg0 st opts key p).2.2 = false := by
          simpa using hthr
        have h2 := ih (replaceHTMLPart reg0 st opts key p).1 pid h1.2
        refine ⟨?_, ?_⟩
        · have hc := h1.1.comp h2.1
          simpa [replaceParts, hthr'] using hc
        · simpa [replaceParts, hthr'] using h2.2

/-- One host command is mount-balance-safe and preserves key-uniqueness. -/
theorem step_ok (reg : Registry) (st : AppState) (c : Cmd) (pid : String)
    (hd : noDupKeys st.instances = true) :
    (StepOK (ind st pid) (step reg st c).2 (ind (step reg st c).1 pid) pid) ∧
    noDupKeys (step reg st c).1.instances = true := by
  cases c with
  | renderC ps f pr =>
      have h1 := renderParts_ok reg (configureOpts reg ps f pr) st pid hd
      have h2 := replaceParts_ok reg reg (configureOpts reg ps f pr)
        (renderParts reg (configureOpts reg ps f pr) st).1 pid h1.2
      refine ⟨?_, ?_⟩
      · have hc := h1.1.comp h2.1
        simpa [step, renderCycle] using hc
      · simpa [step, renderCycle] using h2.2
  | closeC => exact close_ok st pid hd

/-- A whole command list is mount-balance-safe. -/
theorem run_ok (reg : Registry) (cmds : List Cmd) :
    ∀ (st : AppState) (pid : String), noDupKeys st.instances = true →
      (StepOK (ind st pid) (run reg st cmds).2 (ind (run reg st cmds).1 pid) pid) ∧
      noDupKeys (run reg st cmds).1.instances = true := by
  induction cmds with
  | nil =>
      intro st pid hd
      exact ⟨StepOK.nil _ pid, hd⟩
  | cons c cs ih =>
      intro st pid hd
      have h1 := step_ok reg st c pid hd
      have h2 := ih (step reg st c).1 pid h1.2
      refine ⟨?_, ?_⟩
      · have hc := h1.1.comp h2.1
        simpa [run] using hc
      · simpa [run] using h2.2

/-- `_attachPartListeners` does not throw when the registry has a truthy
entry under the part id and an instance is tracked. -/
theorem attachThrows_false (reg : Registry) (st : AppState) (pidv : String) (p : PartDef)
    (hreg : lookupA reg pidv = some (some p))
    (hnone : (lookupA st.instances pidv).isNone = false) :
    attachThrows reg st pidv = false := by
  rcases hf : p.forms with _ | fs
  · simp [attachThrows, hreg, hf, hnone]
  · simp [attachThrows, hreg, hf, hnone]

/-- The full effect trace of a forced re-render of a single mounted part
(registered under its own id): unmount the old instance first, then create
and mount the new one. -/
theorem forcedRerenderTrace (part : PartDef) (old : Instance) (st : AppState)
    (props? : Option PropBag)
    (hl : lookupA st.instances part.id = some ⟨old, true⟩)
    (ht : st.containers.contains part.id = true) :
    (step [(part.id, some part)] st (Cmd.renderC none true props?)).2 =
      [.unmountE part.id old,
       .logE (s!"Setting Up Vue Instance {part.id}"),
       .mountE part.id (mkInstance part (seedProps part
          (configureOpts [(part.id, some part)] none true props?)))] := by
  have htm : part.id ∈ st.containers := by simpa using ht
  rcases hf : part.forms with _ | fs <;>
    simp [step, renderCycle, configureOpts, renderParts, replaceParts, renderHTMLPart,
      replaceHTMLPart, attachThrows, hl, htm, hf, lookupA, lookupA_setA_self]

/-- Claim C2: (a) along every prefix of the effect trace of any host
lifetime (any registry, any command sequence from the fresh state) the
number of currently mounted instances per part identifier stays within
`[0, 1]` — at most one mounted instance per part identifier at every
point; and (b) a forced re-render of a mounted part first unmounts the
previously mounted instance and only afterwards creates and mounts the new
one (shown by the exact effect trace for a single-part registry). -/
theorem c2_at_most_one_mounted :
    (∀ (reg : Registry) (cmds : List Cmd) (pid : String) (p q : List Eff),
        (run reg initState cmds).2 = p ++ q →
        0 ≤ bal pid p ∧ bal pid p ≤ 1) ∧
    (∀ (part : PartDef) (old : Instance) (st : AppState) (props? : Option PropBag),
        lookupA st.instances part.id = some ⟨old, true⟩ →
        st.containers.contains part.id = true →
        (step [(part.id, some part)] st (Cmd.renderC none true props?)).2 =
          [.unmountE part.id old,
           .logE (s!"Setting Up Vue Instance {part.id}"),
           .mountE part.id (mkInstance part (seedProps part
              (configureOpts [(part.id, some part)] none true props?)))]) := by
  constructor
  · intro reg cmds pid p q hpq
    have h := (run_ok reg cmds initState pid rfl).1
    have hs := h.1
    have h0 : ind initState pid = 0 := rfl
    rw [h0] at hs
    have hb := safeFrom_prefix_bound pid p (run reg initState cmds).2 0 hs
      (by norm_num) (by norm_num) q hpq
    simpa using hb
  · intro part old st props? hl ht
    exact forcedRerenderTrace part old st props? hl ht

/-- Witness for `c2_at_most_one_mounted` at concrete inputs: the one-part
lifetime consisting of a single first render, and a forced re-render of a
concrete mounted state. -/
theorem c2_at_most_one_mounted_witness :
    ((run reg0 initState [Cmd.renderC none false (some bagA)]).2 =
       [Eff.logE "Setting Up Vue Instance app",
        Eff.mountE "app" (Instance.created (VueValue.comp 7) bagA)] ++ [] ∧
     (0 ≤ bal "app" [Eff.logE "Setting Up Vue Instance app",
         Eff.mountE "app" (Instance.created (VueValue.comp 7) bagA)] ∧
      bal "app" [Eff.logE "Setting Up Vue Instance app",
         Eff.mountE "app" (Instance.created (VueValue.comp 7) bagA)] ≤ 1)) ∧
    (lookupA stMounted.instances part0.id = some ⟨Instance.direct 9, true⟩ ∧
     (step [(part0.id, some part0)] stMounted (Cmd.renderC none true none)).2 =
       [.unmountE part0.id (.direct 9),
        .logE (s!"Setting Up Vue Instance {part0.id}"),
        .mountE part0.id (mkInstance part0 (seedProps part0
           (configureOpts [(part0.id, some part0)] none true none)))]) :=
  ⟨⟨by decide,
    c2_at_most_one_mounted.1 reg0 [Cmd.renderC none false (some bagA)] "app"
      [Eff.logE "Setting Up Vue Instance app",
       Eff.mountE "app" (Instance.created (VueValue.comp 7) bagA)] [] (by decide)⟩,
   by decide,
   c2_at_most_one_mounted.2 part0 (.direct 9) stMounted none (by decide) (by decide)⟩

end FvttVue
